import Mathlib

set_option maxRecDepth 8192

/-!
Verification of the Ethereum consensus light client of `axonweb3/relayer`
(`crates/relayer/src/light_client/eth.rs`) against its specification.

The Rust code is shallowly embedded: machine integers become `Nat`
(the few arithmetic operations involved — division, multiplication by 3,
comparisons — cannot overflow `u64` on the relevant ranges), `Option`
stays `Option`, fallible calls return `Except`, and Rust `.unwrap()`
panics are made explicit as a `crash` result carrying the panic site.
External cryptography (tree hashing, Merkle-branch checks, BLS decoding
and aggregate verification) is kept abstract as a record `Crypto` of
function parameters, matching `utils.rs` which only forwards to crypto
libraries.  The wall clock (`expected_current_slot`) is passed in as a
`now` parameter.
-/

namespace EthLC

/-- A beacon block header, `ibc_relayer_types::clients::ics07_eth::header::Header`.
Hash32 roots are modelled as `Nat`. -/
structure Header where
  slot : Nat
  proposer_index : Nat
  parent_root : Nat
  state_root : Nat
  body_root : Nat
deriving DecidableEq, Repr, Inhabited

/-- Modelled from the spec: `Header::is_empty` of the `relayer-types` crate is not
under `src/`; spec §3 says "A header is *empty* if all fields default (slot
preserved); empty headers mark forked/skipped slots in the cache." -/
def Header.is_empty (h : Header) : Bool :=
  h.proposer_index == 0 && h.parent_root == 0 && h.state_root == 0 && h.body_root == 0

/-- A sync committee: 512 BLS public keys (kept as a list of opaque
byte-blobs modelled by `Nat`) plus an aggregate key. -/
structure SyncCommittee where
  pubkeys : List Nat
  aggregate_pubkey : Nat
deriving DecidableEq, Repr, Inhabited

/-- `SyncAggregate`: the 512-bit participation bitvector (as a list of
booleans) and the aggregate BLS signature (opaque, as `Nat`). -/
structure SyncAggregate where
  sync_committee_bits : List Bool
  sync_committee_signature : Nat
deriving DecidableEq, Repr, Inhabited

/-- `BitVector::num_set_bits`: the number of set bits. -/
def SyncAggregate.num_set_bits (sa : SyncAggregate) : Nat :=
  sa.sync_committee_bits.count true

/-- The concrete `Update` (LightClientUpdate): all fields populated. -/
structure Update where
  attested_header : Header
  next_sync_committee : SyncCommittee
  next_sync_committee_branch : List Nat
  finalized_header : Header
  finality_branch : List Nat
  sync_aggregate : SyncAggregate
  signature_slot : Nat
deriving DecidableEq, Repr, Inhabited

/-- `FinalityUpdate` (LightClientFinalityUpdate): no next-committee material. -/
structure FinalityUpdate where
  attested_header : Header
  finalized_header : Header
  finality_branch : List Nat
  sync_aggregate : SyncAggregate
  signature_slot : Nat
deriving DecidableEq, Repr, Inhabited

/-- The generic union view used by the shared verifier/applier: all
committee/finality fields optional. -/
structure GenericUpdate where
  attested_header : Header
  next_sync_committee : Option SyncCommittee
  next_sync_committee_branch : Option (List Nat)
  finalized_header : Option Header
  finality_branch : Option (List Nat)
  sync_aggregate : SyncAggregate
  signature_slot : Nat
deriving DecidableEq, Repr, Inhabited

/-- Modelled from the spec: `GenericUpdate::from(&Update)` of the
`relayer-types` crate is not under `src/`; spec §3 says the "concrete
`Update` always populates" the optional fields of the generic view. -/
def GenericUpdate.fromUpdate (u : Update) : GenericUpdate where
  attested_header := u.attested_header
  next_sync_committee := some u.next_sync_committee
  next_sync_committee_branch := some u.next_sync_committee_branch
  finalized_header := some u.finalized_header
  finality_branch := some u.finality_branch
  sync_aggregate := u.sync_aggregate
  signature_slot := u.signature_slot

/-- Modelled from the spec: `GenericUpdate::from(&FinalityUpdate)` of the
`relayer-types` crate is not under `src/`; spec §3/§4.4 say "`FinalityUpdate`
omits next-committee material" and "finality updates have
`next_sync_committee = None`". -/
def GenericUpdate.fromFinalityUpdate (u : FinalityUpdate) : GenericUpdate where
  attested_header := u.attested_header
  next_sync_committee := none
  next_sync_committee_branch := none
  finalized_header := some u.finalized_header
  finality_branch := some u.finality_branch
  sync_aggregate := u.sync_aggregate
  signature_slot := u.signature_slot

/-- Modelled from the spec: `Update::from_finalized_header` of the
`relayer-types` crate is not under `src/`; spec §4.7/§8 say the client
"synthesize[s] an empty-header `Update`" whose "finalized_header.slot ==
key_slot and all other header fields default". -/
def Update.from_finalized_header (h : Header) : Update :=
  { (default : Update) with finalized_header := h }

/-- Modelled from the spec: `Update::from_finality_update` of the
`relayer-types` crate is not under `src/`; spec §4.7 says "Synthesize
`Update = u ⊕ \x7bnext_sync_committee, next_sync_committee_branch\x7d` from
store". -/
def Update.from_finality_update (u : FinalityUpdate) (nsc : SyncCommittee)
    (nscb : List Nat) : Update where
  attested_header := u.attested_header
  next_sync_committee := nsc
  next_sync_committee_branch := nscb
  finalized_header := u.finalized_header
  finality_branch := u.finality_branch
  sync_aggregate := u.sync_aggregate
  signature_slot := u.signature_slot

/-- `MAX_CACHED_UPDATES: usize = 32 * 1024`. -/
def MAX_CACHED_UPDATES : Nat := 32 * 1024

/-- `calc_epoch(slot) = slot / 32` (eth.rs). -/
def calc_epoch (slot : Nat) : Nat := slot / 32

/-- Modelled from the spec: `calc_sync_period` lives in
`light_client/utils.rs`, which is not under `src/`; spec §3 invariant 2
says "`calc_sync_period(slot) = slot / (32·256)`". -/
def calc_sync_period (slot : Nat) : Nat := slot / (32 * 256)

/-! ### The `BTreeMap<u64, Update>` cache
Modelled as an association list kept sorted by key (strictly ascending),
so `pop_first` removes the entry with the least slot, as in `BTreeMap`. -/

/-- `BTreeMap::insert`: insertion into the key-sorted association list,
replacing an existing binding of the same key. -/
def btInsert (k : Nat) (v : Update) : List (Nat × Update) → List (Nat × Update)
  | [] => [(k, v)]
  | (k', v') :: rest =>
    if k < k' then (k, v) :: (k', v') :: rest
    else if k = k' then (k, v) :: rest
    else (k', v') :: btInsert k v rest

/-- `BTreeMap::get(&k).cloned()`. -/
def btGet (l : List (Nat × Update)) (k : Nat) : Option Update :=
  (l.find? (fun p => p.fst == k)).map Prod.snd

/-- The light client store (`LightClientStore`). -/
structure LightClientStore where
  finalized_header : Header
  current_sync_committee : SyncCommittee
  next_sync_committee : Option SyncCommittee
  next_sync_committee_branch : Option (List Nat)
  previous_max_active_participants : Nat
  current_max_active_participants : Nat
  finality_updates : List (Nat × Update)
deriving DecidableEq, Repr, Inhabited

/-- The part of `ConsensusClient` state touched by the applier: the store
plus `last_checkpoint` (the checkpoint root, a hash modelled as `Nat`). -/
structure ClientState where
  store : LightClientStore
  last_checkpoint : Option Nat
deriving DecidableEq, Repr, Inhabited

/-- The external cryptographic primitives of `light_client/utils.rs` and the
BLS library, kept abstract as function parameters.  `pubkey_deserialize`
models `PublicKey::deserialize` (`none` = decode failure, which the source
`.unwrap()`s); `is_aggregate_valid` models the BLS aggregate check
(spec §4.1: "returns false on any decode failure" of the signature). -/
structure Crypto where
  tree_hash_root : Header → Nat
  is_finality_proof_valid : Header → Header → List Nat → Bool
  is_next_committee_proof_valid : Header → SyncCommittee → List Nat → Bool
  pubkey_deserialize : Nat → Option Nat
  is_aggregate_valid : Nat → Nat → List Nat → Bool
  compute_committee_sign_root : Nat → Nat → Nat

/-- `has_sync_update` (eth.rs line 381). -/
def has_sync_update (u : GenericUpdate) : Bool :=
  u.finalized_header.isSome && u.finality_branch.isSome

/-- `has_finality_update` (eth.rs line 385; textually identical to
`has_sync_update` in the source). -/
def has_finality_update (u : GenericUpdate) : Bool :=
  u.finalized_header.isSome && u.finality_branch.isSome

/-- `update.finalized_header.as_ref().map(|h| h.slot).unwrap_or(0)`. -/
def update_finalized_slot (u : GenericUpdate) : Nat :=
  (u.finalized_header.map Header.slot).getD 0

/-- The `should_apply_update` predicate of `apply_generic_update`
(eth.rs lines 343–354), including the 2/3 participation threshold
`committee_bits * 3 >= 512 * 2`. -/
def should_apply_update (store : LightClientStore) (u : GenericUpdate) : Bool :=
  let committee_bits := u.sync_aggregate.num_set_bits
  let update_attested_period := calc_sync_period u.attested_header.slot
  let update_finalized_period := calc_sync_period (update_finalized_slot u)
  let update_has_finalized_next_committee :=
    store.next_sync_committee.isNone && has_sync_update u && has_finality_update u
      && (update_finalized_period == update_attested_period)
  let update_is_newer := decide (update_finalized_slot u > store.finalized_header.slot)
  let has_majority := decide (committee_bits * 3 ≥ 512 * 2)
  has_majority && (update_is_newer || update_has_finalized_next_committee)

/-- The unconditional participation-counter update at the top of
`apply_generic_update` (eth.rs 328–331):
`current_max_active_participants := max(current_max_active_participants,
committee_bits)`. -/
def bump_participants (store : LightClientStore) (u : GenericUpdate) :
    LightClientStore :=
  { store with
    current_max_active_participants :=
      max store.current_max_active_participants u.sync_aggregate.num_set_bits }

/-- The committee install/rotate block of `apply_generic_update`
(eth.rs 357–369), run only under `should_apply_update`. -/
def apply_committee_step (store0 : LightClientStore) (u : GenericUpdate) :
    LightClientStore :=
  if store0.next_sync_committee.isNone then
    { store0 with
      next_sync_committee := u.next_sync_committee,
      next_sync_committee_branch := u.next_sync_committee_branch }
  else if calc_sync_period (update_finalized_slot u) =
      calc_sync_period store0.finalized_header.slot + 1 then
    (match store0.next_sync_committee with
    | some nsc =>
      { store0 with
        current_sync_committee := nsc,
        next_sync_committee := u.next_sync_committee,
        next_sync_committee_branch := u.next_sync_committee_branch,
        previous_max_active_participants :=
          store0.current_max_active_participants,
        current_max_active_participants := 0 }
    | none => store0)
  else store0

/-- The finalized-header replacement block of `apply_generic_update`
(eth.rs 371–377), run only under `should_apply_update`: replace the
header when the update's finalized slot is strictly newer and write
`last_checkpoint` at 32-divisible slots. -/
def apply_header_step (c : Crypto) (lc0 : Option Nat)
    (store1 : LightClientStore) (u : GenericUpdate) : ClientState :=
  if update_finalized_slot u > store1.finalized_header.slot then
    let fh : Header := u.finalized_header.getD default
    let store2 : LightClientStore := { store1 with finalized_header := fh }
    let lc : Option Nat :=
      if store2.finalized_header.slot % 32 = 0 then
        some (c.tree_hash_root store2.finalized_header)
      else lc0
    { store := store2, last_checkpoint := lc }
  else { store := store1, last_checkpoint := lc0 }

/-- `apply_generic_update` (eth.rs lines 325–379).  The participation
counter is raised unconditionally; when `should_apply_update` holds, the
committee block and the header block run.  The two source `.unwrap()`s
(`store.next_sync_committee` in the rotation arm and
`update.finalized_header` in the replacement arm) are guarded by the
surrounding conditions; their unreachable `none` arms leave the state
unchanged resp. use the default header. -/
def apply_generic_update (c : Crypto) (st : ClientState) (u : GenericUpdate) :
    ClientState :=
  if should_apply_update (bump_participants st.store u) u then
    apply_header_step c st.last_checkpoint
      (apply_committee_step (bump_participants st.store u) u) u
  else { store := bump_participants st.store u, last_checkpoint := st.last_checkpoint }

/-- The error kinds of `ConsensusError` raised by the verifier. -/
inductive ConsensusError where
  | InsufficientParticipation
  | InvalidTimestamp
  | InvalidPeriod
  | NotRelevant
  | InvalidFinalityProof
  | InvalidNextSyncCommitteeProof
  | InvalidSignature
deriving DecidableEq, Repr

/-- Sites at which the Rust verifier can abort abnormally (an `.unwrap()`
on `None` or an out-of-range committee index). -/
inductive CrashSite where
  | nextSyncCommitteeBranchUnwrapCrash
  | storeNextSyncCommitteeUnwrapCrash
  | pubkeyDeserializeUnwrapCrash
  | pubkeyIndexCrash
deriving DecidableEq, Repr

/-- Outcome of `verify_generic_update`: success, a `ConsensusError`, or an
abnormal abort (Rust panic) at a named site. -/
inductive VerifyResult where
  | ok
  | err (e : ConsensusError)
  | crash (site : CrashSite)
deriving DecidableEq, Repr

/-- The indexed loop body of `get_participating_keys` (eth.rs 809–822):
walk the bitfield, and for each set bit select `committee.pubkeys[i]` and
`PublicKey::deserialize(..).unwrap()` it.  A missing index or a failed
decode is the corresponding crash. -/
def get_participating_keys_go (decode : Nat → Option Nat) (pubkeys : List Nat) :
    List Bool → Nat → Except CrashSite (List Nat)
  | [], _ => .ok []
  | b :: rest, i =>
    if b then
      match pubkeys.get? i with
      | none => .error .pubkeyIndexCrash
      | some pkBytes =>
        match decode pkBytes with
        | none => .error .pubkeyDeserializeUnwrapCrash
        | some pk =>
          match get_participating_keys_go decode pubkeys rest (i + 1) with
          | .ok pks => .ok (pk :: pks)
          | .error s => .error s
    else get_participating_keys_go decode pubkeys rest (i + 1)

/-- `get_participating_keys` (eth.rs 809–822).  Note the source returns
`Result` but never constructs an `Err`: its only failure mode is the
panic inside the closure, modelled by `Except.error`. -/
def get_participating_keys (decode : Nat → Option Nat) (committee : SyncCommittee)
    (bits : List Bool) : Except CrashSite (List Nat) :=
  get_participating_keys_go decode committee.pubkeys bits 0

/-- Committee selection of the signature step (eth.rs 467–471): the
current committee for the store period, else the *unwrapped*
`next_sync_committee`. -/
def select_committee (store : LightClientStore) (update_sig_period store_period : Nat) :
    Option SyncCommittee :=
  if update_sig_period = store_period then some store.current_sync_committee
  else store.next_sync_committee

/-- The aggregate-signature check over the selected committee:
`get_participating_keys` (eth.rs 472–473) followed by
`verify_sync_committee_signature` (eth.rs 475–484, 489–504). -/
def signature_check (c : Crypto) (u : GenericUpdate) (committee : SyncCommittee) :
    VerifyResult :=
  match get_participating_keys c.pubkey_deserialize committee
      u.sync_aggregate.sync_committee_bits with
  | .error s => .crash s
  | .ok pks =>
    let header_root := c.tree_hash_root u.attested_header
    let signing_root := c.compute_committee_sign_root header_root u.signature_slot
    if c.is_aggregate_valid u.sync_aggregate.sync_committee_signature signing_root pks
    then .ok
    else .err .InvalidSignature

/-- The tail of `verify_generic_update` (eth.rs 467–486): select the
committee (crashing on the `.unwrap()` of an absent
`store.next_sync_committee`) and run the signature check. -/
def verify_sig_step (c : Crypto) (store : LightClientStore) (u : GenericUpdate)
    (update_sig_period store_period : Nat) : VerifyResult :=
  match select_committee store update_sig_period store_period with
  | none => .crash .storeNextSyncCommitteeUnwrapCrash
  | some committee => signature_check c u committee

/-- The finality-proof guard+check of `verify_generic_update`
(eth.rs 443–453) as a failure predicate: `true` iff both fields are
present and the Merkle check fails. -/
def finality_proof_fails (c : Crypto) (u : GenericUpdate) : Bool :=
  match u.finalized_header, u.finality_branch with
  | some fh, some fb => ! c.is_finality_proof_valid u.attested_header fh fb
  | _, _ => false

/-- The next-committee proof check of `verify_generic_update`
(eth.rs 455–465) followed by the signature step.  The arm unwraps
`update.next_sync_committee_branch` guarded only by
`next_sync_committee.is_some() && finality_branch.is_some()`; a present
committee with an absent branch is the corresponding crash. -/
def next_committee_step (c : Crypto) (store : LightClientStore) (u : GenericUpdate)
    (update_sig_period store_period : Nat) : VerifyResult :=
  if u.next_sync_committee.isSome && u.finality_branch.isSome then
    match u.next_sync_committee, u.next_sync_committee_branch with
    | some nsc, some nscb =>
      if c.is_next_committee_proof_valid u.attested_header nsc nscb then
        verify_sig_step c store u update_sig_period store_period
      else .err .InvalidNextSyncCommitteeProof
    | some _, none => .crash .nextSyncCommitteeBranchUnwrapCrash
    | none, _ => verify_sig_step c store u update_sig_period store_period
  else verify_sig_step c store u update_sig_period store_period

/-- The two Merkle-proof checks of `verify_generic_update`
(eth.rs 443–465) followed by the signature step. -/
def verify_proof_steps (c : Crypto) (store : LightClientStore) (u : GenericUpdate)
    (update_sig_period store_period : Nat) : VerifyResult :=
  if finality_proof_fails c u then .err .InvalidFinalityProof
  else next_committee_step c store u update_sig_period store_period

/-- The relevance check of `verify_generic_update` (eth.rs 426–441) —
present twice, textually identical, in the source; both occurrences are
kept — followed by the proof-and-signature pipeline. -/
def verify_relevance_step (c : Crypto) (store : LightClientStore) (u : GenericUpdate)
    (update_sig_period store_period : Nat) : VerifyResult :=
  if u.attested_header.slot ≤ store.finalized_header.slot ∧
      ¬ (store.next_sync_committee.isNone ∧ u.next_sync_committee.isSome ∧
        calc_sync_period u.attested_header.slot = store_period) then .err .NotRelevant
  else if u.attested_header.slot ≤ store.finalized_header.slot ∧
      ¬ (store.next_sync_committee.isNone ∧ u.next_sync_committee.isSome ∧
        calc_sync_period u.attested_header.slot = store_period) then .err .NotRelevant
  else verify_proof_steps c store u update_sig_period store_period

/-- `verify_generic_update` (eth.rs 399–487): participation, timing and
period checks, then relevance, Merkle proofs and signature.  `now` is
the value of `expected_current_slot()`. -/
def verify_generic_update (c : Crypto) (now : Nat) (store : LightClientStore)
    (u : GenericUpdate) : VerifyResult :=
  if u.sync_aggregate.num_set_bits = 0 then .err .InsufficientParticipation
  else if ¬ (now ≥ u.signature_slot ∧ u.signature_slot > u.attested_header.slot ∧
      u.attested_header.slot ≥ (u.finalized_header.getD default).slot) then
    .err .InvalidTimestamp
  else if ¬ (if store.next_sync_committee.isSome then
        calc_sync_period u.signature_slot = calc_sync_period store.finalized_header.slot
          ∨ calc_sync_period u.signature_slot =
            calc_sync_period store.finalized_header.slot + 1
      else calc_sync_period u.signature_slot =
        calc_sync_period store.finalized_header.slot) then .err .InvalidPeriod
  else verify_relevance_step c store u (calc_sync_period u.signature_slot)
    (calc_sync_period store.finalized_header.slot)

/-- `verify_update` (eth.rs 394–397): lift a concrete `Update` into the
generic view and verify it. -/
def verify_update (c : Crypto) (now : Nat) (store : LightClientStore)
    (u : Update) : VerifyResult :=
  verify_generic_update c now store (GenericUpdate.fromUpdate u)

/-- `verify_finality_update` (eth.rs 389–392). -/
def verify_finality_update (c : Crypto) (now : Nat) (store : LightClientStore)
    (u : FinalityUpdate) : VerifyResult :=
  verify_generic_update c now store (GenericUpdate.fromFinalityUpdate u)

/-- `cache_finality_update` (eth.rs 184–188): a plain insert into the
cache — no eviction. -/
def cache_finality_update (s : LightClientStore) (u : Update) : LightClientStore :=
  { s with finality_updates := btInsert u.finalized_header.slot u s.finality_updates }

/-- `ConsensusClient::get_finality_update` (eth.rs 161–182).  `rpc` is the
outcome of the failover `self.rpc.get_header(slot)` call for this slot. -/
def cc_get_finality_update (store : LightClientStore)
    (rpc : Except Nat (Option Header)) (slot : Nat) : Except Nat (Option Update) :=
  let update := btGet store.finality_updates slot
  if update = none ∧ slot < store.finalized_header.slot then
    match rpc with
    | .ok (some header) => .ok (some (Update.from_finalized_header header))
    | .ok none =>
      .ok (some (Update.from_finalized_header { (default : Header) with slot := slot }))
    | .error e => .error e
  else .ok update

/-- The eviction loop of `store_finality_update` (eth.rs 154–157):
`while len > MAX_CACHED_UPDATES \x7b pop_first() \x7d` (the head of the
key-sorted list is the least slot). -/
def trimCache : List (Nat × Update) → List (Nat × Update)
  | [] => []
  | e :: rest =>
    if (e :: rest).length > MAX_CACHED_UPDATES then trimCache rest else e :: rest

/-- The gap-filling loop of `store_finality_update` (eth.rs 133–144): for
each slot of the given list, insert the looked-up / synthesized finality
update if there is one.  `getU` abstracts the successful results of
`get_finality_update` during the loop. -/
def gapFill (getU : Nat → Option Update) (cache : List (Nat × Update)) :
    List Nat → List (Nat × Update)
  | [] => cache
  | s :: rest =>
    match getU s with
    | some u => gapFill getU (btInsert s u cache) rest
    | none => gapFill getU cache rest

/-- `store_finality_update` (eth.rs 121–159), on a run in which every
gap-fill `get_finality_update` call succeeds (an RPC error aborts the
Rust function before the trim and is not modelled here).  The result is
`none` exactly when the source would panic unwrapping
`next_sync_committee_branch` (eth.rs 148) with a committee present but
no branch. -/
def store_finality_update (getU : Nat → Option Update) (s : LightClientStore)
    (fu : FinalityUpdate) (keep_continuos : Bool) : Option LightClientStore :=
  if s.next_sync_committee.isNone then some s
  else
    -- The source unwraps the committee and its branch only after the
    -- gap-filling loop; hoisting the unwrap before the (side-effect-free
    -- in this embedding) loop returns the same value on every input.
    match s.next_sync_committee, s.next_sync_committee_branch with
    | some nsc, some nscb =>
      let cache1 :=
        if keep_continuos then
          match s.finality_updates.getLast? with
          | some (_, last_update) =>
            gapFill getU s.finality_updates
              (List.range' (last_update.finalized_header.slot + 1)
                (fu.finalized_header.slot - last_update.finalized_header.slot))
          | none => s.finality_updates
        else s.finality_updates
      let u := Update.from_finality_update fu nsc nscb
      some { s with finality_updates := trimCache (btInsert u.finalized_header.slot u cache1) }
    | _, _ => none

/-- First `Ok(Some(header))` among the remaining endpoints: the loop in
the `Ok(None)` arm of `NimbusRpc::get_header` (eth.rs 639–643); errors
and `Ok(None)` results are skipped. -/
def find_first_some : List (Except Nat (Option Header)) → Option Header
  | [] => none
  | .ok (some h) :: _ => some h
  | _ :: rest => find_first_some rest

/-- The loop in the `Err` arm of `NimbusRpc::get_header` (eth.rs 646–660):
first `Ok(Some)` wins; otherwise `Ok(None)` if the `find_none` flag was
raised by any endpoint; otherwise the original error. -/
def err_branch_scan (e : Nat) : List (Except Nat (Option Header)) → Bool →
    Except Nat (Option Header)
  | [], find_none => if find_none then .ok none else .error e
  | .ok (some h) :: _, _ => .ok (some h)
  | .ok none :: rest, _ => err_branch_scan e rest true
  | .error _ :: rest, find_none => err_branch_scan e rest find_none

/-- `NimbusRpc::get_header` (eth.rs 634–662) over the ordered endpoint
pool; each list entry is the outcome of `get_header_inner` on the
corresponding endpoint.  (`NimbusRpc::new` asserts the pool is
non-empty; the `[]` case is arbitrary.) -/
def nimbus_get_header : List (Except Nat (Option Header)) → Except Nat (Option Header)
  | [] => .ok none
  | r0 :: rest =>
    match r0 with
    | .ok (some h) => .ok (some h)
    | .ok none =>
      match find_first_some rest with
      | some h => .ok (some h)
      | none => .ok none
    | .error e => err_branch_scan e rest false

/-- The first `Ok(Some)` value of a result list — spec §4.2 wording
"if any subsequent endpoint returns `Some`, return it". -/
def spec_first_some (l : List (Except Nat (Option Header))) : Option Header :=
  l.findSome? (fun r => match r with | .ok (some h) => some h | _ => none)

/-- Whether some result is `Ok(None)` — spec §4.2 wording "if any
returned `None`". -/
def spec_any_none (l : List (Except Nat (Option Header))) : Bool :=
  l.any (fun r => match r with | .ok none => true | _ => false)

/-- The failover policy exactly as worded in spec §4.2, written from the
spec sentence rather than from the source loops, for the refinement
claim about `get_header`. -/
def failover_policy (r0 : Except Nat (Option Header))
    (rest : List (Except Nat (Option Header))) : Except Nat (Option Header) :=
  match r0 with
  | .ok (some h) => .ok (some h)
  | .ok none =>
    match spec_first_some rest with
    | some h => .ok (some h)
    | none => .ok none
  | .error e =>
    match spec_first_some rest with
    | some h => .ok (some h)
    | none => if spec_any_none rest then .ok none else .error e

/-- The header-collection part of `start_emiting_headers` (eth.rs
244–257): the finalized headers for `start_slot..end_slot`, plus the
header at `end_slot` itself when both ends fall into the same epoch
(source comment: "same epoch means the incoming finality epoch has
forked headers at the begining").  `getU` abstracts successful results
of `get_finality_update`. -/
def collect_headers (getU : Nat → Option Update) (start_slot end_slot : Nat) :
    List Header :=
  let base := (List.range' start_slot (end_slot - start_slot)).filterMap
    (fun s => (getU s).map Update.finalized_header)
  if calc_epoch start_slot = calc_epoch end_slot then
    base ++ ((getU end_slot).map Update.finalized_header).toList
  else base

/-- `start_emiting_headers` (eth.rs 243–270): the batch sent to every
new-block subscriber; `[]` means nothing is emitted (the collection was
empty or all its headers empty). -/
def start_emiting_headers (getU : Nat → Option Update) (start_slot end_slot : Nat) :
    List Header :=
  let finalized_headers := collect_headers getU start_slot end_slot
  if finalized_headers.isEmpty || finalized_headers.all Header.is_empty then []
  else finalized_headers

/-- The header-emission step of `advance` (eth.rs 300–311): when the
finalized slot advanced from `prev` to `fin`, emit the batch for
`[max(prev, fin.saturating_sub(32)), fin)`. -/
def advance_emitted (getU : Nat → Option Update) (prev fin : Nat) : List Header :=
  if fin > prev then start_emiting_headers getU (max prev (fin - 32)) fin else []

/-! ## Theorems -/

/-- The slot of the header the applier would install equals
`update_finalized_slot` (both unwrap `u.finalized_header`, defaulting the
slot to 0). -/
theorem getD_default_slot_eq (u : GenericUpdate) :
    (u.finalized_header.getD default).slot = update_finalized_slot u := by
  cases h : u.finalized_header
  · simp only [update_finalized_slot, h, Option.map_none, Option.getD_none]
    rfl
  · simp [update_finalized_slot, h]

/-- The committee install/rotate block never touches the finalized header. -/
theorem apply_committee_step_finalized_header (store0 : LightClientStore)
    (u : GenericUpdate) :
    (apply_committee_step store0 u).finalized_header = store0.finalized_header := by
  unfold apply_committee_step
  repeat' split
  all_goals rfl

/-- The header block never decreases the finalized slot. -/
theorem apply_header_step_slot_monotone (c : Crypto) (lc0 : Option Nat)
    (s1 : LightClientStore) (u : GenericUpdate) :
    s1.finalized_header.slot ≤
      (apply_header_step c lc0 s1 u).store.finalized_header.slot := by
  unfold apply_header_step
  split
  · rename_i h
    have h2 := getD_default_slot_eq u
    dsimp only
    omega
  · exact le_rfl

/-- C1: for every client state and every generic update, applying the
update via `apply_generic_update` never decreases the finalized header's
slot: the header is replaced only when the update's finalized slot is
strictly greater. -/
theorem apply_generic_update_slot_monotone (c : Crypto) (st : ClientState)
    (u : GenericUpdate) :
    st.store.finalized_header.slot ≤
      (apply_generic_update c st u).store.finalized_header.slot := by
  unfold apply_generic_update
  split
  · refine le_trans ?_ (apply_header_step_slot_monotone _ _ _ _)
    rw [apply_committee_step_finalized_header]
    simp [bump_participants]
  · exact le_rfl

/-- When the update's finalized slot is strictly newer, the header block
installs `u.finalized_header`. -/
theorem apply_header_step_newer (c : Crypto) (lc0 : Option Nat)
    (s1 : LightClientStore) (u : GenericUpdate)
    (h : update_finalized_slot u > s1.finalized_header.slot) :
    (apply_header_step c lc0 s1 u).store.finalized_header =
      u.finalized_header.getD default := by
  unfold apply_header_step
  rw [if_pos h]

/-- C3: for an update strictly newer than the store, 341 set
participation bits (341·3 = 1023 < 1024) do not reach the majority
threshold — the finalized header, both committees, the committee branch
and the checkpoint are all left unchanged — while 342 set bits
(342·3 = 1026 ≥ 1024) make the update apply and install its finalized
header. -/
theorem apply_participation_threshold (c : Crypto) (st : ClientState)
    (u : GenericUpdate)
    (hnew : update_finalized_slot u > st.store.finalized_header.slot) :
    (u.sync_aggregate.num_set_bits = 341 →
       (apply_generic_update c st u).store.finalized_header = st.store.finalized_header
     ∧ (apply_generic_update c st u).store.current_sync_committee =
         st.store.current_sync_committee
     ∧ (apply_generic_update c st u).store.next_sync_committee =
         st.store.next_sync_committee
     ∧ (apply_generic_update c st u).store.next_sync_committee_branch =
         st.store.next_sync_committee_branch
     ∧ (apply_generic_update c st u).last_checkpoint = st.last_checkpoint)
  ∧ (u.sync_aggregate.num_set_bits = 342 →
       u.finalized_header = some (apply_generic_update c st u).store.finalized_header) := by
  constructor
  · intro h341
    have hsa : should_apply_update (bump_participants st.store u) u = false := by
      unfold should_apply_update
      rw [h341]
      rfl
    unfold apply_generic_update
    rw [hsa]
    simp [bump_participants]
  · intro h342
    have hsa : should_apply_update (bump_participants st.store u) u = true := by
      unfold should_apply_update
      rw [h342]
      simp [bump_participants, hnew]
    unfold apply_generic_update
    rw [hsa]
    simp only [if_true]
    have hnew1 : update_finalized_slot u >
        (apply_committee_step (bump_participants st.store u) u).finalized_header.slot := by
      rw [apply_committee_step_finalized_header]
      exact hnew
    rw [apply_header_step_newer _ _ _ _ hnew1]
    cases hfh : u.finalized_header with
    | none => simp [update_finalized_slot, hfh] at hnew
    | some fh => simp [hfh]

/-- When the update's finalized slot is not strictly newer, the header
block changes nothing. -/
theorem apply_header_step_not_newer (c : Crypto) (lc0 : Option Nat)
    (s1 : LightClientStore) (u : GenericUpdate)
    (h : ¬ update_finalized_slot u > s1.finalized_header.slot) :
    apply_header_step c lc0 s1 u = { store := s1, last_checkpoint := lc0 } := by
  unfold apply_header_step
  rw [if_neg h]

/-- On a replacing apply at a 32-divisible slot, the header block writes
the checkpoint to the tree-hash root of the installed header. -/
theorem apply_header_step_checkpoint_set (c : Crypto) (lc0 : Option Nat)
    (s1 : LightClientStore) (u : GenericUpdate)
    (h : update_finalized_slot u > s1.finalized_header.slot)
    (h32 : update_finalized_slot u % 32 = 0) :
    (apply_header_step c lc0 s1 u).last_checkpoint =
      some (c.tree_hash_root (u.finalized_header.getD default)) := by
  unfold apply_header_step
  rw [if_pos h]
  dsimp only
  rw [if_pos (by rw [getD_default_slot_eq]; exact h32)]

/-- On a replacing apply at a slot not divisible by 32, the header block
leaves the checkpoint alone. -/
theorem apply_header_step_checkpoint_unset (c : Crypto) (lc0 : Option Nat)
    (s1 : LightClientStore) (u : GenericUpdate)
    (h : update_finalized_slot u > s1.finalized_header.slot)
    (h32 : update_finalized_slot u % 32 ≠ 0) :
    (apply_header_step c lc0 s1 u).last_checkpoint = lc0 := by
  unfold apply_header_step
  rw [if_pos h]
  dsimp only
  rw [if_neg (by rw [getD_default_slot_eq]; exact h32)]

/-- C8: `last_checkpoint` is assigned — to the tree-hash root of the new
finalized header — exactly on the applies that replace the finalized
header with one whose slot is divisible by 32; on a replacement at a
slot not divisible by 32, and on every apply that does not replace the
header, it is left unchanged. -/
theorem apply_checkpoint_iff (c : Crypto) (st : ClientState) (u : GenericUpdate) :
    ((apply_generic_update c st u).store.finalized_header.slot >
        st.store.finalized_header.slot →
      ((apply_generic_update c st u).store.finalized_header.slot % 32 = 0 →
        (apply_generic_update c st u).last_checkpoint =
          some (c.tree_hash_root (apply_generic_update c st u).store.finalized_header))
    ∧ ((apply_generic_update c st u).store.finalized_header.slot % 32 ≠ 0 →
        (apply_generic_update c st u).last_checkpoint = st.last_checkpoint))
  ∧ ((apply_generic_update c st u).store.finalized_header.slot ≤
        st.store.finalized_header.slot →
      (apply_generic_update c st u).last_checkpoint = st.last_checkpoint) := by
  have hcs : (apply_committee_step (bump_participants st.store u) u).finalized_header
      = st.store.finalized_header := by
    rw [apply_committee_step_finalized_header]
    rfl
  unfold apply_generic_update
  split
  · by_cases hrep : update_finalized_slot u >
        (apply_committee_step (bump_participants st.store u) u).finalized_header.slot
    · have hdr := apply_header_step_newer c st.last_checkpoint _ u hrep
      have hslot : (apply_header_step c st.last_checkpoint
          (apply_committee_step (bump_participants st.store u) u)
          u).store.finalized_header.slot = update_finalized_slot u := by
        rw [hdr, getD_default_slot_eq]
      constructor
      · intro _
        constructor
        · intro h32
          rw [hslot] at h32
          rw [apply_header_step_checkpoint_set c _ _ u hrep h32, hdr]
        · intro h32
          rw [hslot] at h32
          exact apply_header_step_checkpoint_unset c _ _ u hrep h32
      · intro hle
        rw [hslot] at hle
        rw [hcs] at hrep
        omega
    · rw [apply_header_step_not_newer c _ _ u hrep]
      constructor
      · intro hinc
        dsimp only at hinc
        rw [hcs] at hinc
        exact absurd hinc (by omega)
      · intro _
        rfl
  · constructor
    · intro hinc
      dsimp only [bump_participants] at hinc
      exact absurd hinc (by omega)
    · intro _
      rfl

/-- The aggregate-signature check can only yield `ok`, `InvalidSignature`
or a crash — never `InvalidPeriod`. -/
theorem signature_check_ne_invalid_period (c : Crypto) (u : GenericUpdate)
    (committee : SyncCommittee) :
    signature_check c u committee ≠ .err .InvalidPeriod := by
  unfold signature_check
  cases get_participating_keys c.pubkey_deserialize committee
      u.sync_aggregate.sync_committee_bits with
  | error s => simp
  | ok pks =>
    dsimp only
    split <;> simp

/-- The committee-selection and signature step never returns
`InvalidPeriod`. -/
theorem verify_sig_step_ne_invalid_period (c : Crypto) (store : LightClientStore)
    (u : GenericUpdate) (sp stp : Nat) :
    verify_sig_step c store u sp stp ≠ .err .InvalidPeriod := by
  unfold verify_sig_step
  cases select_committee store sp stp with
  | none => simp
  | some committee => exact signature_check_ne_invalid_period c u committee

/-- The next-committee proof check and signature step never returns
`InvalidPeriod`. -/
theorem next_committee_step_ne_invalid_period (c : Crypto) (store : LightClientStore)
    (u : GenericUpdate) (sp stp : Nat) :
    next_committee_step c store u sp stp ≠ .err .InvalidPeriod := by
  unfold next_committee_step
  split
  · split
    · split
      · exact verify_sig_step_ne_invalid_period c store u sp stp
      · simp
    · simp
    · exact verify_sig_step_ne_invalid_period c store u sp stp
  · exact verify_sig_step_ne_invalid_period c store u sp stp

/-- The Merkle-proof and signature pipeline after the period check never
returns `InvalidPeriod`. -/
theorem verify_proof_steps_ne_invalid_period (c : Crypto) (store : LightClientStore)
    (u : GenericUpdate) (sp stp : Nat) :
    verify_proof_steps c store u sp stp ≠ .err .InvalidPeriod := by
  unfold verify_proof_steps
  split
  · simp
  · exact next_committee_step_ne_invalid_period c store u sp stp

/-- Everything after the period check — relevance, proofs, signature —
never returns `InvalidPeriod`. -/
theorem verify_relevance_step_ne_invalid_period (c : Crypto) (store : LightClientStore)
    (u : GenericUpdate) (sp stp : Nat) :
    verify_relevance_step c store u sp stp ≠ .err .InvalidPeriod := by
  unfold verify_relevance_step
  split
  · simp
  · exact verify_proof_steps_ne_invalid_period c store u sp stp

/-- C2: for any update passing the participation and timing checks,
`verify_generic_update` returns `InvalidPeriod` exactly when the period
rule fails: with `next_sync_committee` present the signature-slot period
must be the store period or its successor, otherwise it must equal the
store period. -/
theorem verify_invalid_period_iff (c : Crypto) (now : Nat)
    (store : LightClientStore) (u : GenericUpdate)
    (hbits : u.sync_aggregate.num_set_bits ≠ 0)
    (htime : now ≥ u.signature_slot ∧ u.signature_slot > u.attested_header.slot ∧
      u.attested_header.slot ≥ (u.finalized_header.getD default).slot) :
    verify_generic_update c now store u = .err .InvalidPeriod ↔
      ¬ (if store.next_sync_committee.isSome then
           calc_sync_period u.signature_slot =
               calc_sync_period store.finalized_header.slot
             ∨ calc_sync_period u.signature_slot =
               calc_sync_period store.finalized_header.slot + 1
         else calc_sync_period u.signature_slot =
           calc_sync_period store.finalized_header.slot) := by
  simp only [verify_generic_update]
  rw [if_neg hbits, if_neg (not_not_intro htime)]
  by_cases hP : (if store.next_sync_committee.isSome then
      calc_sync_period u.signature_slot = calc_sync_period store.finalized_header.slot
        ∨ calc_sync_period u.signature_slot =
          calc_sync_period store.finalized_header.slot + 1
    else calc_sync_period u.signature_slot =
      calc_sync_period store.finalized_header.slot)
  · rw [if_neg (not_not_intro hP)]
    simp only [hP, not_true, iff_false]
    exact verify_relevance_step_ne_invalid_period c store u _ _
  · rw [if_pos hP]
    simp [hP]

/-! ### Concrete fixtures for witnesses and counterexamples -/

/-- A concrete crypto record: hashing returns the slot, every Merkle
check passes, every pubkey decodes, every aggregate verifies. -/
def cWitness : Crypto where
  tree_hash_root := fun h => h.slot
  is_finality_proof_valid := fun _ _ _ => true
  is_next_committee_proof_valid := fun _ _ _ => true
  pubkey_deserialize := fun n => some n
  is_aggregate_valid := fun _ _ _ => true
  compute_committee_sign_root := fun r _ => r

/-- A header with the given slot and proposer index, other fields zero. -/
def mkHeader (s p : Nat) : Header := ⟨s, p, 0, 0, 0⟩

/-- A generic update with one set participation bit, attested slot 1,
signature slot 2 and no finality/committee material. -/
def uC2 : GenericUpdate where
  attested_header := mkHeader 1 0
  next_sync_committee := none
  next_sync_committee_branch := none
  finalized_header := none
  finality_branch := none
  sync_aggregate := { sync_committee_bits := [true], sync_committee_signature := 0 }
  signature_slot := 2

/-- Witness: the period-rule characterization instantiated at `uC2`
against the default (bootstrap-empty) store at wall-clock slot 10. -/
theorem verify_invalid_period_iff_witness :
    uC2.sync_aggregate.num_set_bits ≠ 0 ∧
    (10 ≥ uC2.signature_slot ∧ uC2.signature_slot > uC2.attested_header.slot ∧
      uC2.attested_header.slot ≥ (uC2.finalized_header.getD default).slot) ∧
    ((verify_generic_update cWitness 10 default uC2 = .err .InvalidPeriod) ↔
      ¬ (if (default : LightClientStore).next_sync_committee.isSome then
           calc_sync_period uC2.signature_slot =
               calc_sync_period (default : LightClientStore).finalized_header.slot
             ∨ calc_sync_period uC2.signature_slot =
               calc_sync_period (default : LightClientStore).finalized_header.slot + 1
         else calc_sync_period uC2.signature_slot =
           calc_sync_period (default : LightClientStore).finalized_header.slot)) :=
  ⟨by decide, by decide,
    verify_invalid_period_iff cWitness 10 default uC2 (by decide) (by decide)⟩

/-- A generic update finalizing slot 1 with exactly 341 set bits. -/
def u341 : GenericUpdate where
  attested_header := default
  next_sync_committee := none
  next_sync_committee_branch := none
  finalized_header := some (mkHeader 1 0)
  finality_branch := none
  sync_aggregate := ⟨List.replicate 341 true, 0⟩
  signature_slot := 0

/-- The same update with exactly 342 set bits. -/
def u342 : GenericUpdate :=
  { u341 with sync_aggregate := ⟨List.replicate 342 true, 0⟩ }

/-- Witness: at the default state, `u341` leaves the finalized header in
place while `u342` installs its finalized header. -/
theorem apply_participation_threshold_witness :
    update_finalized_slot u341 > (default : ClientState).store.finalized_header.slot ∧
    (apply_generic_update cWitness default u341).store.finalized_header =
      (default : ClientState).store.finalized_header ∧
    u342.finalized_header =
      some (apply_generic_update cWitness default u342).store.finalized_header :=
  ⟨by decide,
    ((apply_participation_threshold cWitness default u341 (by decide)).1 (by decide)).1,
    (apply_participation_threshold cWitness default u342 (by decide)).2 (by decide)⟩

/-- A fully-signed generic update finalizing slot 32 (an epoch boundary). -/
def u32 : GenericUpdate where
  attested_header := default
  next_sync_committee := none
  next_sync_committee_branch := none
  finalized_header := some (mkHeader 32 0)
  finality_branch := none
  sync_aggregate := ⟨List.replicate 512 true, 0⟩
  signature_slot := 0

/-- Witness: applying `u32` at the default state replaces the header at a
32-divisible slot and writes `last_checkpoint` to its tree-hash root. -/
theorem apply_checkpoint_iff_witness :
    (apply_generic_update cWitness default u32).store.finalized_header.slot >
      (default : ClientState).store.finalized_header.slot ∧
    (apply_generic_update cWitness default u32).store.finalized_header.slot % 32 = 0 ∧
    (apply_generic_update cWitness default u32).last_checkpoint =
      some (cWitness.tree_hash_root
        (apply_generic_update cWitness default u32).store.finalized_header) :=
  ⟨by decide, by decide,
    ((apply_checkpoint_iff cWitness default u32).1 (by decide)).1 (by decide)⟩

/-- The participating-keys loop can only crash on a missing index or a
failed pubkey decode — never with the branch-unwrap site. -/
theorem get_participating_keys_go_error (decode : Nat → Option Nat)
    (pubkeys : List Nat) :
    ∀ (bits : List Bool) (i : Nat) (s : CrashSite),
      get_participating_keys_go decode pubkeys bits i = .error s →
      s = .pubkeyIndexCrash ∨ s = .pubkeyDeserializeUnwrapCrash := by
  intro bits
  induction bits with
  | nil =>
    intro i s h
    simp [get_participating_keys_go] at h
  | cons b rest ih =>
    intro i s h
    unfold get_participating_keys_go at h
    by_cases hb : b = true
    · rw [if_pos hb] at h
      cases hg : pubkeys.get? i with
      | none =>
        rw [hg] at h
        dsimp only at h
        cases h
        left
        rfl
      | some pkBytes =>
        rw [hg] at h
        dsimp only at h
        cases hd : decode pkBytes with
        | none =>
          rw [hd] at h
          dsimp only at h
          cases h
          right
          rfl
        | some pk =>
          rw [hd] at h
          dsimp only at h
          cases hrec : get_participating_keys_go decode pubkeys rest (i + 1) with
          | ok pks =>
            rw [hrec] at h
            dsimp only at h
            cases h
          | error s2 =>
            rw [hrec] at h
            dsimp only at h
            cases h
            exact ih _ _ hrec
    · rw [if_neg hb] at h
      exact ih _ _ h

/-- The aggregate-signature check never crashes at the branch-unwrap site. -/
theorem signature_check_no_branch_crash (c : Crypto) (u : GenericUpdate)
    (committee : SyncCommittee) :
    signature_check c u committee ≠ .crash .nextSyncCommitteeBranchUnwrapCrash := by
  unfold signature_check
  cases hg : get_participating_keys c.pubkey_deserialize committee
      u.sync_aggregate.sync_committee_bits with
  | error s =>
    unfold get_participating_keys at hg
    have hs := get_participating_keys_go_error c.pubkey_deserialize
      committee.pubkeys _ _ _ hg
    intro hc
    injection hc with h1
    rcases hs with h | h <;> simp_all
  | ok pks =>
    dsimp only
    split <;> simp

/-- The committee-selection and signature step never crashes at the
branch-unwrap site. -/
theorem verify_sig_step_no_branch_crash (c : Crypto) (store : LightClientStore)
    (u : GenericUpdate) (sp stp : Nat) :
    verify_sig_step c store u sp stp ≠ .crash .nextSyncCommitteeBranchUnwrapCrash := by
  unfold verify_sig_step
  cases select_committee store sp stp with
  | none => simp
  | some committee => exact signature_check_no_branch_crash c u committee

/-- When a present `next_sync_committee` comes with a present branch, the
next-committee step cannot crash at the branch unwrap. -/
theorem next_committee_step_no_branch_crash (c : Crypto) (store : LightClientStore)
    (u : GenericUpdate) (sp stp : Nat)
    (hbr : u.next_sync_committee.isSome = true →
      u.next_sync_committee_branch.isSome = true) :
    next_committee_step c store u sp stp ≠ .crash .nextSyncCommitteeBranchUnwrapCrash := by
  unfold next_committee_step
  split
  · split
    · split
      · exact verify_sig_step_no_branch_crash c store u sp stp
      · simp
    · rename_i heq1 heq2
      have := hbr (by rw [heq1]; rfl)
      rw [heq2] at this
      cases this
    · exact verify_sig_step_no_branch_crash c store u sp stp
  · exact verify_sig_step_no_branch_crash c store u sp stp

/-- The proof-and-signature pipeline never crashes at the branch unwrap
while the branch accompanies the committee. -/
theorem verify_proof_steps_no_branch_crash (c : Crypto) (store : LightClientStore)
    (u : GenericUpdate) (sp stp : Nat)
    (hbr : u.next_sync_committee.isSome = true →
      u.next_sync_committee_branch.isSome = true) :
    verify_proof_steps c store u sp stp ≠ .crash .nextSyncCommitteeBranchUnwrapCrash := by
  unfold verify_proof_steps
  split
  · simp
  · exact next_committee_step_no_branch_crash c store u sp stp hbr

/-- Everything after the period check never crashes at the branch unwrap
while the branch accompanies the committee. -/
theorem verify_relevance_step_no_branch_crash (c : Crypto) (store : LightClientStore)
    (u : GenericUpdate) (sp stp : Nat)
    (hbr : u.next_sync_committee.isSome = true →
      u.next_sync_committee_branch.isSome = true) :
    verify_relevance_step c store u sp stp ≠
      .crash .nextSyncCommitteeBranchUnwrapCrash := by
  unfold verify_relevance_step
  split
  · simp
  · exact verify_proof_steps_no_branch_crash c store u sp stp hbr

/-- Any generic update whose `next_sync_committee_branch` accompanies its
`next_sync_committee` cannot make `verify_generic_update` crash at the
branch unwrap. -/
theorem verify_generic_no_branch_crash (c : Crypto) (now : Nat)
    (store : LightClientStore) (u : GenericUpdate)
    (hbr : u.next_sync_committee.isSome = true →
      u.next_sync_committee_branch.isSome = true) :
    verify_generic_update c now store u ≠ .crash .nextSyncCommitteeBranchUnwrapCrash := by
  unfold verify_generic_update
  by_cases h1 : u.sync_aggregate.num_set_bits = 0
  · rw [if_pos h1]
    simp
  · rw [if_neg h1]
    by_cases h2 : (now ≥ u.signature_slot ∧ u.signature_slot > u.attested_header.slot ∧
        u.attested_header.slot ≥ (u.finalized_header.getD default).slot)
    · rw [if_neg (not_not_intro h2)]
      by_cases h3 : (if store.next_sync_committee.isSome then
          calc_sync_period u.signature_slot =
              calc_sync_period store.finalized_header.slot
            ∨ calc_sync_period u.signature_slot =
              calc_sync_period store.finalized_header.slot + 1
        else calc_sync_period u.signature_slot =
          calc_sync_period store.finalized_header.slot)
      · rw [if_neg (not_not_intro h3)]
        exact verify_relevance_step_no_branch_crash c store u _ _ hbr
      · rw [if_pos h3]
        simp
    · rw [if_pos h2]
      simp

/-- C10: through the public wrappers the branch unwrap in
`verify_generic_update` never sees `None`: a concrete `Update` always
carries its `next_sync_committee_branch`, and a `FinalityUpdate` lifts
to a generic update with no `next_sync_committee` at all, so the guarded
arm is not entered — verification via the public interface cannot panic
at this point. -/
theorem verify_public_wrappers_no_branch_crash (c : Crypto) (now : Nat)
    (store : LightClientStore) (u : Update) (fu : FinalityUpdate) :
    verify_update c now store u ≠ .crash .nextSyncCommitteeBranchUnwrapCrash ∧
    verify_finality_update c now store fu ≠
      .crash .nextSyncCommitteeBranchUnwrapCrash := by
  constructor
  · exact verify_generic_no_branch_crash c now store _
      (by simp [GenericUpdate.fromUpdate])
  · exact verify_generic_no_branch_crash c now store _
      (by simp [GenericUpdate.fromFinalityUpdate])

/-- For any input that reaches the signature stage (participation,
timing, period and relevance checks pass, the finality proof does not
fail, there is no next-committee material, and a committee is selected),
`verify_generic_update` forwards the outcome of `get_participating_keys`:
a crash from a failed `PublicKey::deserialize(..).unwrap()` (or a missing
index) aborts verification at that site, while a decodable key set with a
failing aggregate check yields `InvalidSignature`. -/
theorem verify_sig_decode_and_failure (c : Crypto) (now : Nat)
    (store : LightClientStore) (u : GenericUpdate) (committee : SyncCommittee)
    (hbits : u.sync_aggregate.num_set_bits ≠ 0)
    (htime : now ≥ u.signature_slot ∧ u.signature_slot > u.attested_header.slot ∧
      u.attested_header.slot ≥ (u.finalized_header.getD default).slot)
    (hper : (if store.next_sync_committee.isSome then
        calc_sync_period u.signature_slot = calc_sync_period store.finalized_header.slot
          ∨ calc_sync_period u.signature_slot =
            calc_sync_period store.finalized_header.slot + 1
      else calc_sync_period u.signature_slot =
        calc_sync_period store.finalized_header.slot))
    (hrel : ¬ (u.attested_header.slot ≤ store.finalized_header.slot ∧
      ¬ (store.next_sync_committee.isNone ∧ u.next_sync_committee.isSome ∧
        calc_sync_period u.attested_header.slot =
          calc_sync_period store.finalized_header.slot)))
    (hfin : finality_proof_fails c u = false)
    (hnonext : u.next_sync_committee = none)
    (hsel : select_committee store (calc_sync_period u.signature_slot)
      (calc_sync_period store.finalized_header.slot) = some committee) :
    (∀ s, get_participating_keys c.pubkey_deserialize committee
        u.sync_aggregate.sync_committee_bits = .error s →
      verify_generic_update c now store u = .crash s) ∧
    (∀ pks, get_participating_keys c.pubkey_deserialize committee
        u.sync_aggregate.sync_committee_bits = .ok pks →
      c.is_aggregate_valid u.sync_aggregate.sync_committee_signature
        (c.compute_committee_sign_root (c.tree_hash_root u.attested_header)
          u.signature_slot) pks = false →
      verify_generic_update c now store u = .err .InvalidSignature) := by
  have hreduce : verify_generic_update c now store u = signature_check c u committee := by
    unfold verify_generic_update
    rw [if_neg hbits, if_neg (not_not_intro htime), if_neg (not_not_intro hper)]
    unfold verify_relevance_step
    rw [if_neg hrel, if_neg hrel]
    unfold verify_proof_steps
    rw [if_neg (by simp [hfin])]
    unfold next_committee_step
    rw [if_neg (by simp [hnonext])]
    unfold verify_sig_step
    rw [hsel]
  constructor
  · intro s hs
    rw [hreduce]
    unfold signature_check
    rw [hs]
  · intro pks hpks hagg
    rw [hreduce]
    unfold signature_check
    rw [hpks]
    dsimp only
    rw [if_neg (by simp [hagg])]

/-- A crypto record in which every public key fails to decode. -/
def cDecodeFail : Crypto := { cWitness with pubkey_deserialize := fun _ => none }

/-- A crypto record in which keys decode but the aggregate check fails. -/
def cSigFail : Crypto := { cWitness with is_aggregate_valid := fun _ _ _ => false }

/-- A store whose current committee has the single pubkey blob `7`. -/
def storeC9 : LightClientStore :=
  { (default : LightClientStore) with current_sync_committee := ⟨[7], 0⟩ }

/-- Counterexample: with one set participation bit selecting a pubkey
whose bytes fail to decode, `verify_generic_update` aborts at the
`PublicKey::deserialize(..).unwrap()` site instead of returning the
`InvalidSignature` error. -/
theorem verify_pubkey_decode_crash_cex :
    verify_generic_update cDecodeFail 10 storeC9 uC2 =
      .crash .pubkeyDeserializeUnwrapCrash ∧
    verify_generic_update cDecodeFail 10 storeC9 uC2 ≠ .err .InvalidSignature := by
  decide

/-- Witness: when the selected keys decode and the aggregate check fails,
verification returns `InvalidSignature` without crashing. -/
theorem verify_sig_decode_and_failure_witness :
    verify_generic_update cSigFail 10 storeC9 uC2 = .err .InvalidSignature :=
  (verify_sig_decode_and_failure cSigFail 10 storeC9 uC2 ⟨[7], 0⟩ (by decide)
    (by decide) (by decide) (by decide) (by decide) rfl (by decide)).2
    [7] (by rfl) (by rfl)

/-- The `Ok(None)`-arm loop returns exactly the first `Ok(Some)` of the
remaining endpoints. -/
theorem find_first_some_eq_spec (l : List (Except Nat (Option Header))) :
    find_first_some l = spec_first_some l := by
  induction l with
  | nil => rfl
  | cons r rest ih =>
    cases r with
    | ok o =>
      cases o with
      | some h => rfl
      | none => simp [find_first_some, spec_first_some, List.findSome?_cons] at ih ⊢; exact ih
    | error e => simp [find_first_some, spec_first_some, List.findSome?_cons] at ih ⊢; exact ih

/-- The `Err`-arm loop implements: first `Ok(Some)` wins, else `Ok(None)`
when a missing slot was seen (or the flag was already set), else the
original error. -/
theorem err_branch_scan_eq_spec (e : Nat) (l : List (Except Nat (Option Header))) :
    ∀ b, err_branch_scan e l b =
      (match spec_first_some l with
        | some h => .ok (some h)
        | none => if spec_any_none l || b then .ok none else .error e) := by
  induction l with
  | nil =>
    intro b
    simp [err_branch_scan, spec_first_some, spec_any_none]
  | cons r rest ih =>
    intro b
    cases r with
    | ok o =>
      cases o with
      | some h =>
        simp [err_branch_scan, spec_first_some, List.findSome?_cons]
      | none =>
        rw [show err_branch_scan e (Except.ok none :: rest) b =
              err_branch_scan e rest true from rfl, ih true,
            show spec_first_some (Except.ok none :: rest) = spec_first_some rest from rfl,
            show spec_any_none (Except.ok none :: rest) = true from rfl]
        cases hfs : spec_first_some rest with
        | some h => simp [hfs]
        | none => simp [hfs]
    | error e2 =>
      rw [show err_branch_scan e (Except.error e2 :: rest) b =
            err_branch_scan e rest b from rfl, ih b,
          show spec_first_some (Except.error e2 :: rest) = spec_first_some rest from rfl,
          show spec_any_none (Except.error e2 :: rest) = spec_any_none rest from rfl]

/-- C5: on a non-empty ordered endpoint pool, `NimbusRpc::get_header`
implements exactly the spec's failover policy: `r₀`'s `Ok(Some)` wins;
after `r₀ = Ok(None)` the first subsequent `Ok(Some)` wins, else
`Ok(None)`; after `r₀ = Err` any subsequent `Ok(Some)` wins, else
`Ok(None)` if some endpoint reported a missing slot, else the original
error. -/
theorem nimbus_get_header_failover (r0 : Except Nat (Option Header))
    (rest : List (Except Nat (Option Header))) :
    nimbus_get_header (r0 :: rest) = failover_policy r0 rest := by
  cases r0 with
  | ok o =>
    cases o with
    | some h => rfl
    | none =>
      show (match find_first_some rest with
        | some h => Except.ok (some h)
        | none => Except.ok none) = _
      rw [find_first_some_eq_spec]
      rfl
  | error e =>
    show err_branch_scan e rest false = _
    rw [err_branch_scan_eq_spec e rest false]
    cases hfs : spec_first_some rest with
    | some h => simp [failover_policy, hfs]
    | none => simp [failover_policy, hfs]

/-- C6: `get_finality_update(slot)` returns the cached update for a
cached slot; for an uncached slot strictly below the finalized slot it
synthesizes an update from the RPC header — an empty header carrying the
requested slot when the failover RPC reports the slot missing — and for
an uncached slot at or above the finalized slot it returns `None`. -/
theorem cc_get_finality_update_cases (store : LightClientStore)
    (rpc : Except Nat (Option Header)) (slot : Nat) :
    (∀ u, btGet store.finality_updates slot = some u →
      cc_get_finality_update store rpc slot = .ok (some u)) ∧
    (btGet store.finality_updates slot = none →
      slot < store.finalized_header.slot →
      (∀ h, rpc = .ok (some h) →
        cc_get_finality_update store rpc slot =
          .ok (some (Update.from_finalized_header h))) ∧
      (rpc = .ok none →
        cc_get_finality_update store rpc slot =
          .ok (some (Update.from_finalized_header
            { (default : Header) with slot := slot })))) ∧
    (btGet store.finality_updates slot = none →
      ¬ slot < store.finalized_header.slot →
      cc_get_finality_update store rpc slot = .ok none) := by
  refine ⟨?_, ?_, ?_⟩
  · intro u hu
    simp [cc_get_finality_update, hu]
  · intro hnone hlt
    constructor
    · intro h hh
      subst hh
      simp [cc_get_finality_update, hnone, hlt]
    · intro hh
      subst hh
      simp [cc_get_finality_update, hnone, hlt]
  · intro hnone hge
    simp [cc_get_finality_update, hnone, hge]

/-- A store whose finalized slot is 5 with an empty cache. -/
def storeC6 : LightClientStore :=
  { (default : LightClientStore) with finalized_header := mkHeader 5 0 }

/-- Witness: on an empty cache, slot 3 (below finalized slot 5) with a
missing RPC header synthesizes the empty-header update carrying slot 3,
and slot 0 at the default store (finalized slot 0) returns `None`. -/
theorem cc_get_finality_update_cases_witness :
    cc_get_finality_update storeC6 (.ok none) 3 =
      .ok (some (Update.from_finalized_header
        { (default : Header) with slot := 3 })) ∧
    cc_get_finality_update default (.ok none) 0 = .ok none :=
  ⟨((cc_get_finality_update_cases storeC6 (.ok none) 3).2.1 (by rfl) (by decide)).2 rfl,
    (cc_get_finality_update_cases default (.ok none) 0).2.2 (by rfl) (by decide)⟩

/-- Inserting a fresh key into the cache grows it by exactly one entry. -/
theorem btInsert_length_fresh (k : Nat) (v : Update) :
    ∀ l : List (Nat × Update), k ∉ l.map Prod.fst →
      (btInsert k v l).length = l.length + 1 := by
  intro l
  induction l with
  | nil => intro _; rfl
  | cons e rest ih =>
    intro hk
    rw [List.map_cons, List.mem_cons] at hk
    push_neg at hk
    obtain ⟨e1, e2⟩ := e
    unfold btInsert
    by_cases h1 : k < e1
    · rw [if_pos h1]
      rfl
    · rw [if_neg h1, if_neg (by exact fun h => hk.1 h)]
      simp only [List.length_cons]
      rw [ih hk.2]

/-- The eviction loop leaves at most `MAX_CACHED_UPDATES` entries. -/
theorem trimCache_length_le :
    ∀ l : List (Nat × Update), (trimCache l).length ≤ MAX_CACHED_UPDATES := by
  intro l
  induction l with
  | nil => simp [trimCache, MAX_CACHED_UPDATES]
  | cons e rest ih =>
    unfold trimCache
    split
    · exact ih
    · rename_i h
      omega

/-- `n` cache entries at the consecutive ascending slots
`start, start+1, …, start+n-1`, all holding the default update. -/
def mkCacheAsc (start : Nat) : Nat → List (Nat × Update)
  | 0 => []
  | n + 1 => (start, (default : Update)) :: mkCacheAsc (start + 1) n

/-- `mkCacheAsc` produces exactly `n` entries. -/
theorem mkCacheAsc_length : ∀ (n start : Nat), (mkCacheAsc start n).length = n := by
  intro n
  induction n with
  | zero => intro start; rfl
  | succ m ih =>
    intro start
    simp [mkCacheAsc, ih (start + 1)]

/-- Keys below `start` do not occur in `mkCacheAsc start n`. -/
theorem mkCacheAsc_fresh : ∀ (n start k : Nat), k < start →
    k ∉ (mkCacheAsc start n).map Prod.fst := by
  intro n
  induction n with
  | zero =>
    intro start k _
    simp [mkCacheAsc]
  | succ m ih =>
    intro start k hk
    simp only [mkCacheAsc, List.map_cons, List.mem_cons]
    push_neg
    exact ⟨by omega, ih (start + 1) k (by omega)⟩

/-- A cache filled with exactly `MAX_CACHED_UPDATES` entries at the slots
`1..MAX_CACHED_UPDATES`. -/
def bigCache : List (Nat × Update) := mkCacheAsc 1 MAX_CACHED_UPDATES

/-- A store holding the full cache. -/
def cacheFullStore : LightClientStore :=
  { (default : LightClientStore) with finality_updates := bigCache }

/-- Counterexample: `cache_finality_update` inserts without evicting, so
caching one more update (here the default update, at the fresh slot 0)
on a store already holding `MAX_CACHED_UPDATES` entries leaves
`MAX_CACHED_UPDATES + 1` entries — the claimed bound fails after this
cache-inserting operation. -/
theorem cache_finality_update_overflow_cex :
    cacheFullStore.finality_updates.length = MAX_CACHED_UPDATES ∧
    (cache_finality_update cacheFullStore default).finality_updates.length =
      MAX_CACHED_UPDATES + 1 ∧
    ¬ (cache_finality_update cacheFullStore default).finality_updates.length ≤
      MAX_CACHED_UPDATES := by
  have hlen : bigCache.length = MAX_CACHED_UPDATES :=
    mkCacheAsc_length MAX_CACHED_UPDATES 1
  have hfresh : 0 ∉ bigCache.map Prod.fst :=
    mkCacheAsc_fresh MAX_CACHED_UPDATES 1 0 Nat.one_pos
  have hunf : (cache_finality_update cacheFullStore default).finality_updates =
      btInsert (default : Update).finalized_header.slot (default : Update)
        cacheFullStore.finality_updates := rfl
  have hkey : (default : Update).finalized_header.slot = 0 := rfl
  have hcache : cacheFullStore.finality_updates = bigCache := rfl
  refine ⟨hlen, ?_, ?_⟩
  · rw [hunf, hkey, hcache, btInsert_length_fresh 0 default bigCache hfresh, hlen]
  · intro hle
    rw [hunf, hkey, hcache, btInsert_length_fresh 0 default bigCache hfresh,
      hlen] at hle
    omega

/-- When `store_finality_update` completes (committee present with its
branch, every gap-fill lookup succeeding), the cache it leaves holds at
most `MAX_CACHED_UPDATES` entries; when the committee is absent it skips
and leaves the store unchanged. -/
theorem store_finality_update_bound (getU : Nat → Option Update)
    (s : LightClientStore) (fu : FinalityUpdate) (keep : Bool) :
    ∀ s', store_finality_update getU s fu keep = some s' →
      s'.finality_updates.length ≤ MAX_CACHED_UPDATES ∨ s' = s := by
  intro s' h
  unfold store_finality_update at h
  split at h
  · injection h with h1
    exact Or.inr h1.symm
  · split at h
    · dsimp only at h
      injection h with h1
      subst h1
      left
      exact trimCache_length_le _
    · cases h

/-- A store with a committee and branch present, ready to cache. -/
def sNext : LightClientStore :=
  { (default : LightClientStore) with
    next_sync_committee := some default, next_sync_committee_branch := some [] }

/-- The store left by caching the default finality update into `sNext`. -/
def sNextCached : LightClientStore :=
  { sNext with
    finality_updates := [(0, Update.from_finality_update default default [])] }

/-- Witness: a completed `store_finality_update` run lands within the
cache bound. -/
theorem store_finality_update_bound_witness :
    sNextCached.finality_updates.length ≤ MAX_CACHED_UPDATES ∨ sNextCached = sNext :=
  store_finality_update_bound (fun _ => none) sNext default false sNextCached (by rfl)

/-- A lookup that always succeeds collapses the collection `filterMap`
to a plain `map`. -/
theorem filterMap_some_map (us : Nat → Update) (l : List Nat) :
    l.filterMap (fun s => some ((us s).finalized_header)) =
      l.map (fun s => (us s).finalized_header) := by
  induction l with
  | nil => rfl
  | cons a t ih => simp [List.filterMap_cons, ih]

/-- Two slots in the same epoch are at most 31 apart. -/
theorem epoch_eq_sub_le (a b : Nat) (h : a / 32 = b / 32) : b - a ≤ 31 := by
  have hd := Nat.div_add_mod b 32
  have hm : b % 32 < 32 := Nat.mod_lt _ (by omega)
  have ha := Nat.div_mul_le_self a 32
  rw [h] at ha
  omega

/-- An update carrying a non-empty header for each requested slot. -/
def getU7 : Nat → Option Update :=
  fun s => some { (default : Update) with finalized_header := mkHeader s 1 }

/-- Counterexample: advancing from slot 33 to 34 (same epoch 1) emits the
headers for slots 33 *and 34*, although 34 lies outside the claimed
half-open range `[max(33, 34-32), 34) = [33, 34)`. -/
theorem advance_emitted_epoch_overflow_cex :
    (advance_emitted getU7 33 34).map Header.slot = [33, 34] ∧
    34 ∉ List.range' (max 33 (34 - 32)) (34 - max 33 (34 - 32)) := by
  exact ⟨by decide, by decide⟩

/-- C7 amended: when the finalized slot advances from `prev` to `fin` and
every slot resolves to a non-empty finality-update header carrying that
slot, the batch emitted by `advance` covers exactly the slots
`[max(prev, fin − 32), fin)` — plus, when both ends of that range share
an epoch, the header at slot `fin` itself — and holds at most 32
headers. -/
theorem advance_emitted_slots (us : Nat → Update)
    (hslot : ∀ s, (us s).finalized_header.slot = s)
    (hne : ∀ s, (us s).finalized_header.is_empty = false)
    (prev fin : Nat) (hlt : prev < fin) :
    (advance_emitted (fun s => some (us s)) prev fin).map Header.slot =
      List.range' (max prev (fin - 32)) (fin - max prev (fin - 32)) ++
        (if calc_epoch (max prev (fin - 32)) = calc_epoch fin then [fin] else []) ∧
    (advance_emitted (fun s => some (us s)) prev fin).length ≤ 32 := by
  have hstart_lt : max prev (fin - 32) < fin := by omega
  have hcollect : collect_headers (fun s => some (us s)) (max prev (fin - 32)) fin =
      (List.range' (max prev (fin - 32)) (fin - max prev (fin - 32))).map
          (fun s => (us s).finalized_header) ++
        (if calc_epoch (max prev (fin - 32)) = calc_epoch fin
         then [(us fin).finalized_header] else []) := by
    unfold collect_headers
    dsimp only
    split
    · simp [filterMap_some_map]
    · simp [filterMap_some_map]
  have hmem : (max prev (fin - 32)) ∈
      List.range' (max prev (fin - 32)) (fin - max prev (fin - 32)) := by
    rw [List.mem_range'_1]
    omega
  have hcol_ne : collect_headers (fun s => some (us s)) (max prev (fin - 32)) fin ≠ [] := by
    rw [hcollect]
    intro hc
    rcases List.append_eq_nil.mp hc with ⟨h1, _⟩
    rw [List.map_eq_nil_iff] at h1
    rw [h1] at hmem
    exact List.not_mem_nil _ hmem
  have hall : (collect_headers (fun s => some (us s))
      (max prev (fin - 32)) fin).all Header.is_empty = false := by
    rw [hcollect]
    refine List.all_eq_false.mpr ⟨(us (max prev (fin - 32))).finalized_header, ?_, ?_⟩
    · exact List.mem_append_left _ (List.mem_map_of_mem _ hmem)
    · rw [hne]
      exact Bool.false_ne_true
  have hemit : advance_emitted (fun s => some (us s)) prev fin =
      collect_headers (fun s => some (us s)) (max prev (fin - 32)) fin := by
    unfold advance_emitted start_emiting_headers
    rw [if_pos hlt]
    dsimp only
    rw [if_neg (by simp [Bool.or_eq_true, List.isEmpty_iff, hall, hcol_ne])]
  constructor
  · rw [hemit, hcollect, List.map_append, List.map_map]
    congr 1
    · calc (List.range' (max prev (fin - 32)) (fin - max prev (fin - 32))).map
            (Header.slot ∘ fun s => (us s).finalized_header)
          = (List.range' (max prev (fin - 32)) (fin - max prev (fin - 32))).map id := by
            refine List.map_congr_left ?_
            intro a _
            exact hslot a
        _ = List.range' (max prev (fin - 32)) (fin - max prev (fin - 32)) :=
            List.map_id _
    · split
      · simp [hslot]
      · simp
  · rw [hemit, hcollect, List.length_append, List.length_map, List.length_range']
    split
    · rename_i hep
      have hsub := epoch_eq_sub_le (max prev (fin - 32)) fin
        (by simpa [calc_epoch] using hep)
      simp only [List.length_cons, List.length_nil]
      omega
    · simp only [List.length_nil]
      omega

/-- A family of updates with non-empty headers carrying their slot. -/
def usW : Nat → Update :=
  fun s => { (default : Update) with finalized_header := mkHeader s 1 }

/-- Witness: advancing from slot 0 to 1 (same epoch 0) emits the headers
for slots 0 and 1 — the range `[0, 1)` plus the epoch-sharing slot 1. -/
theorem advance_emitted_slots_witness :
    (advance_emitted (fun s => some (usW s)) 0 1).map Header.slot =
      List.range' (max 0 (1 - 32)) (1 - max 0 (1 - 32)) ++
        (if calc_epoch (max 0 (1 - 32)) = calc_epoch 1 then [1] else []) ∧
    (advance_emitted (fun s => some (usW s)) 0 1).length ≤ 32 :=
  advance_emitted_slots usW (fun _ => rfl) (fun _ => rfl) 0 1 (by decide)

end EthLC
